import Mathlib

/-!
# Verification of `swamp_git.py` and `get_gata.py`

A shallow embedding of the two Python source files of the repository,
together with theorems settling the specification claims about them.

Conventions of the embedding:
* Python strings that are inspected character by character (file contents,
  AI responses, the comma-separated dates argument) are `List Char`;
  configuration strings that are only compared for emptiness or equality
  stay `String`.
* Python `datetime` values appear in two forms: `WallClock` (a linear
  day count plus time-of-day fields, used by the backdating arithmetic of
  `compute_backdated_when`) and `LocalTime` (calendar fields, used by the
  `strftime` formatting in `update_activity_file`).  The pytz timezone
  conversion itself is external and is modelled as already applied.
* Effects on the git repository are explicit state passing over `GitState`
  plus an event trace; push outcomes are oracle booleans carried in the
  state.  Fallible steps return an `Option String` error, mirroring a
  raised exception propagating to the caller.
-/

set_option autoImplicit false
set_option linter.unnecessarySeqFocus false
set_option linter.unusedVariables false

/- ## Basic character/string utilities shared by several functions -/

/-- The whitespace characters recognised by Python's `str.strip` (ASCII part). -/
def isSpaceChar (c : Char) : Bool :=
  c == ' ' || c == '\t' || c == '\n' || c == '\x0b' || c == '\x0c' || c == '\r'

/-- Python `str.lstrip()`. -/
def lstrip (l : List Char) : List Char := l.dropWhile isSpaceChar

/-- Python `str.rstrip()`. -/
def rstrip (l : List Char) : List Char := (l.reverse.dropWhile isSpaceChar).reverse

/-- Python `str.strip()`: drop whitespace from both ends. -/
def strip (l : List Char) : List Char := rstrip (lstrip l)

/-- The decimal digit character for a remainder `0..9`. -/
def digitChar : Nat → Char
  | 0 => '0'
  | 1 => '1'
  | 2 => '2'
  | 3 => '3'
  | 4 => '4'
  | 5 => '5'
  | 6 => '6'
  | 7 => '7'
  | 8 => '8'
  | _ => '9'

/-- Fuel-driven decimal rendering of a natural number (most significant first). -/
def natToStringGo : Nat → Nat → List Char → List Char
  | 0, _, acc => acc
  | fuel + 1, n, acc =>
    if n = 0 then acc else natToStringGo fuel (n / 10) (digitChar (n % 10) :: acc)

/-- Decimal rendering of a natural number, as Python `str`/`%d` would print it. -/
def natToString (n : Nat) : List Char :=
  if n = 0 then ['0'] else natToStringGo (n + 1) n []

/-- Zero-padded decimal rendering to width `w`: Python `%0wd` / `strftime` padding. -/
def padNat (w : Nat) (n : Nat) : List Char :=
  List.replicate (w - (natToString n).length) '0' ++ natToString n

/-- The first line of a text: everything before the first newline. -/
def firstLine (l : List Char) : List Char := l.takeWhile (fun c => c != '\n')

/- ## `compute_backdated_when` (swamp_git.py lines 335-349) -/

/-- A timezone-aware instant viewed through its local wall clock: a linear day
number plus the time-of-day fields that `datetime.replace` manipulates. -/
structure WallClock where
  days : Int
  hour : Nat
  minute : Nat
  second : Nat
  micro : Nat
deriving DecidableEq, Repr

/-- The three values of the `--backdate` CLI choice. -/
inductive Backdate where
  | hourly
  | daily
  | weekly
deriving DecidableEq, Repr

/-- `base - relativedelta(hours=h)`: wall-clock hour subtraction with day borrow. -/
def subHours (t : WallClock) (h : Nat) : WallClock :=
  let total : Int := t.days * 24 + t.hour - h
  { t with days := total / 24, hour := (total % 24).toNat }

/-- `base - relativedelta(days=d)`: wall-clock day subtraction. -/
def subDays (t : WallClock) (d : Nat) : WallClock :=
  { t with days := t.days - d }

/-- `compute_backdated_when(timezone, scheme, index)`, with the ambient
`datetime.now(tz)` passed explicitly as `base`.  Mirrors the source: a zero
delta for no scheme, hours/days/weeks otherwise, then an unconditional
`.replace(hour=12, minute=0, second=0, microsecond=0)`. -/
def compute_backdated_when (base : WallClock) (scheme : Option Backdate) (index : Nat) :
    WallClock :=
  let when := match scheme with
    | none => base
    | some Backdate.hourly => subHours base index
    | some Backdate.daily => subDays base index
    | some Backdate.weekly => subDays base (7 * index)
  { when with hour := 12, minute := 0, second := 0, micro := 0 }

/- ## `generate_ai_commit_text` (swamp_git.py lines 318-331): response processing -/

/-- The post-processing `generate_ai_commit_text` applies to the first choice's
message content returned by the chat-completion endpoint:
`text = content.strip()` followed by `return text[:220].rstrip()`. -/
def generate_ai_commit_text (content : List Char) : List Char :=
  let text := strip content
  rstrip (text.take 220)

/- ## `get_gata.py`: zero-contribution day collection -/

/-- One entry of the `contributions` list returned by the calendar API. -/
structure ContributionDay where
  date : String
  count : Nat
deriving DecidableEq, Repr

/-- The accumulation loop of `get_gata.py` lines 10-14: start from the empty
list and append `day["date"]` whenever `day["count"] == 0`.  The resulting
list is what line 17 prints to standard output. -/
def zero_days (contributions : List ContributionDay) : List String :=
  contributions.foldl (fun acc day => if day.count = 0 then acc ++ [day.date] else acc) []

/- ## `main` (swamp_git.py lines 483-485): the fill-missing dates argument -/

/-- Python `str.split(",")`: cut the character list at every comma; `n` commas
give `n + 1` segments, so the empty input gives one empty segment. -/
def splitComma : List Char → List (List Char)
  | [] => [[]]
  | c :: rest =>
    if c = ',' then [] :: splitComma rest
    else
      match splitComma rest with
      | [] => [[c]]
      | s :: ss => (c :: s) :: ss

/-- The dates-argument processing of `main` for the `fill-missing` subcommand:
`[d.strip() for d in args.dates.split(",") if d.strip()]`. -/
def parse_dates (s : List Char) : List (List Char) :=
  (splitComma s).filterMap fun d =>
    let t := strip d
    if t = [] then none else some t

/- ## `update_activity_file` (swamp_git.py lines 211-229) -/

/-- The calendar fields of the localized timestamp `now = when.astimezone(tz)`
that `update_activity_file` formats with `strftime`. -/
structure LocalTime where
  year : Nat
  month : Nat
  day : Nat
  hour : Nat
  minute : Nat
deriving DecidableEq, Repr

/-- `now.strftime('%d.%m.%y')`. -/
def fmtDMY (t : LocalTime) : List Char :=
  padNat 2 t.day ++ '.' :: (padNat 2 t.month ++ '.' :: padNat 2 (t.year % 100))

/-- `now.strftime('%H:%M')`. -/
def fmtHM (t : LocalTime) : List Char :=
  padNat 2 t.hour ++ ':' :: padNat 2 t.minute

/-- The target file path `Path(repo_path) / %Y / %m / f"{%d}.md"`. -/
def activity_path (repo_path : List Char) (t : LocalTime) : List Char :=
  repo_path ++ '/' :: (padNat 4 t.year ++ '/' ::
    (padNat 2 t.month ++ '/' :: (padNat 2 t.day ++ ".md".toList)))

/-- The fresh-file content `f"# {now.strftime('%d.%m.%y')}\n\n{activity}\n"`. -/
def headerText (t : LocalTime) (activity : List Char) : List Char :=
  '#' :: ' ' :: (fmtDMY t ++ '\n' :: '\n' :: (activity ++ ['\n']))

/-- The appended block `f"\n<hr>\n\n_UPD ({now.strftime('%H:%M')}):_\n\n{activity}\n"`. -/
def updText (t : LocalTime) (activity : List Char) : List Char :=
  "\n<hr>\n\n_UPD (".toList ++ fmtHM t ++ ("):_\n\n".toList ++ (activity ++ ['\n']))

/-- `update_activity_file(repo_path, timezone, activity, when)` over a
filesystem modelled as a partial map from paths to file contents (`none` =
the file does not exist).  A missing or empty file receives the header text;
a non-empty file has the update block appended.  Returns the new filesystem
and the returned path string. -/
def update_activity_file (fs : List Char → Option (List Char)) (repo_path : List Char)
    (t : LocalTime) (activity : List Char) :
    (List Char → Option (List Char)) × List Char :=
  let path := activity_path repo_path t
  match fs path with
  | none => (fun p => if p = path then some (headerText t activity) else fs p, path)
  | some c =>
    if c = [] then
      (fun p => if p = path then some (headerText t activity) else fs p, path)
    else
      (fun p => if p = path then some (c ++ updText t activity) else fs p, path)

/- ## Git model: `Settings`, identity resolution and `commit_and_push` -/

/-- The fields of the `Settings` dataclass that the verified functions read. -/
structure Settings where
  repo_url : String
  repo_path : List Char
  branch : String
  secondary_remote_name : String
  secondary_remote_url : Option String
  force_push_secondary : Bool
  author_name : String
  author_email : String
deriving DecidableEq, Repr

/-- A gitpython `Actor`: commit author/committer name and email. -/
structure Actor where
  name : String
  email : String
deriving DecidableEq, Repr

/-- The `user.name`/`user.email` entries of the repository's local config as
`config_reader` exposes them; `none` means the lookup raises (the entry is
missing, or the reader itself could not be constructed). -/
structure RepoConfig where
  user_name : Option String
  user_email : Option String
deriving DecidableEq, Repr

/-- A commit as created by `repo.index.commit(message, author=…, committer=…,
author_date=…, commit_date=…)`. -/
structure Commit where
  message : String
  author : Actor
  committer : Actor
  author_date : Option String
  commit_date : Option String
deriving DecidableEq, Repr

/-- The observable git repository state threaded through `commit_and_push`,
with oracle booleans for the outcomes of the external push/config-write
calls. `dirty` is the value of
`repo.is_dirty(index=True, working_tree=True, untracked_files=True)` after
`git add -A`: whether the working tree differs from `HEAD`. -/
structure GitState where
  commits : List Commit
  dirty : Bool
  config : RepoConfig
  remotes : List String
  hasUpstream : Bool
  originPushOk : Bool
  secondaryPushOk : Bool
  configWriteOk : Bool
deriving DecidableEq, Repr

/-- The externally visible actions `commit_and_push` / `op_gpt_push` perform,
in order. -/
inductive Event where
  | ensureRemote (name : String) (url : String)
  | checkout (branch : String)
  | stage
  | commitCreated (c : Commit)
  | pushOrigin (setUpstream : Bool)
  | pushSecondary (name : String) (force : Bool)
  | logInfo (msg : String)
  | logError (msg : String)
  | ensureRepo
  | syncOrigin
  | aiCall (i : Nat)
  | fileWrite (path : List Char)
  | sleepFor (sec : Int)
deriving DecidableEq, Repr

/-- `ensure_remote_url` (lines 138-148): create the named remote if it is
absent, correct its URL otherwise.  URLs of existing remotes are not tracked
by the model, so the URL correction is content-free here; the remote-name
set and the fact that the remote ends up present are what the claims use. -/
def ensure_remote_url (st : GitState) (url : String) (name : String) :
    GitState × List Event :=
  ({ st with remotes := if name ∈ st.remotes then st.remotes else st.remotes ++ [name] },
   [Event.ensureRemote name url])

/-- `_ensure_repo_identity` (lines 178-208), without the best-effort config
write-back (which `commit_and_push` applies to the state).  Mirrors the
source exactly: settings fields first; a field that is empty falls back to
the local config inside a `try` block, so a raising `user.name` lookup
(modelled by `none`) skips the `user.email` lookup as well; if name or email
is still empty the function raises `SystemExit` (modelled by `none`). -/
def _ensure_repo_identity (cfg : RepoConfig) (s : Settings) : Option Actor :=
  let name := s.author_name
  let email := s.author_email
  let pair :=
    if name = "" ∨ email = "" then
      match (if name = "" then cfg.user_name else some name) with
      | none => (name, email)
      | some n =>
        match (if email = "" then cfg.user_email else some email) with
        | none => (n, email)
        | some e => (n, e)
    else (name, email)
  if pair.1 = "" ∨ pair.2 = "" then none else some ⟨pair.1, pair.2⟩

/-- Modelled from the spec's words for comparison (claim C7): "Preference
order: explicit settings fields, then the local repository's existing
configuration.  If neither yields a complete name+email pair, abort." -/
def identity_spec (cfg : RepoConfig) (s : Settings) : Option Actor :=
  let n := if s.author_name ≠ "" then s.author_name else cfg.user_name.getD ""
  let e := if s.author_email ≠ "" then s.author_email else cfg.user_email.getD ""
  if n ≠ "" ∧ e ≠ "" then some ⟨n, e⟩ else none

/-- The staging/commit step of `commit_and_push` (lines 252-268): `git add -A`
followed by a commit iff the working tree differs from `HEAD`. -/
def stage_phase (st : GitState) (msg : String) (a : Actor)
    (author_date commit_date : Option String) : GitState × List Event :=
  if st.dirty then
    let c : Commit := ⟨msg, a, a, author_date, commit_date⟩
    ({ st with commits := st.commits ++ [c], dirty := false },
     [Event.stage, Event.commitCreated c])
  else
    (st, [Event.stage, Event.logInfo "nothing to commit"])

/-- The push step of `commit_and_push` (lines 270-294): push to origin
(set-upstream on the first push), re-raising a failure; then, if a secondary
remote is configured and present, push to it (forced per the flag) with a
failure only logged. -/
def push_phase (st : GitState) (secondary : Option String) (force : Bool) :
    GitState × List Event × Option String :=
  if st.originPushOk then
    ({ st with hasUpstream := true },
     Event.pushOrigin (!st.hasUpstream) ::
       (match secondary with
        | some n =>
          if n ∈ st.remotes then
            if st.secondaryPushOk then [Event.pushSecondary n force]
            else [Event.pushSecondary n force, Event.logError "secondary push failed"]
          else []
        | none => []),
     none)
  else
    (st, [Event.pushOrigin (!st.hasUpstream), Event.logError "origin push failed"],
     some "origin push failed")

/-- `commit_and_push` (lines 232-294): remote URL correction, branch checkout,
identity resolution (with best-effort config write-back), staging,
conditional commit, primary push, best-effort secondary push.  The returned
`Option String` is the exception propagating to the caller, if any. -/
def commit_and_push (st : GitState) (s : Settings) (branch msg : String)
    (secondary : Option String) (force : Bool)
    (author_date commit_date : Option String) :
    GitState × List Event × Option String :=
  let r1 := ensure_remote_url st s.repo_url "origin"
  let r2 := match s.secondary_remote_url with
    | some u => ensure_remote_url r1.1 u s.secondary_remote_name
    | none => (r1.1, [])
  let ev := r1.2 ++ r2.2 ++ [Event.checkout branch]
  match _ensure_repo_identity r2.1.config s with
  | none => (r2.1, ev, some "commit author not configured")
  | some a =>
    let st3 := { r2.1 with
      config := if r2.1.configWriteOk then ⟨some a.name, some a.email⟩ else r2.1.config }
    let r4 := stage_phase st3 msg a author_date commit_date
    let r5 := push_phase r4.1 secondary force
    (r5.1, ev ++ r4.2 ++ r5.2.1, r5.2.2)

/-- Recognizer for commit-creation events. -/
def isCommitEvent : Event → Bool
  | Event.commitCreated _ => true
  | _ => false

/-- Recognizer for origin-push events. -/
def isOriginPush : Event → Bool
  | Event.pushOrigin _ => true
  | _ => false

/-- Recognizer for secondary-push events. -/
def isSecondaryPush : Event → Bool
  | Event.pushSecondary _ _ => true
  | _ => false

/-- Recognizer for staging events. -/
def isStage : Event → Bool
  | Event.stage => true
  | _ => false

/- ## `op_gpt_push` (swamp_git.py lines 371-407) -/

/-- Oracles for the external inputs of `op_gpt_push`: the current time, the
calendar/ISO renderings the `strftime` calls produce, and the content of each
chat-completion response. -/
structure Env where
  nowWall : WallClock
  calendarOf : WallClock → LocalTime
  aiResponse : Nat → List Char
  isoOf : WallClock → String
  dateIso : WallClock → String

/-- The mutable state `op_gpt_push` threads: the filesystem under the local
clone plus the git repository state. -/
structure OpState where
  fs : List Char → Option (List Char)
  git : GitState

/-- The `for i in range(count)` body of `op_gpt_push`, iterated over the
remaining indices, stopping at the first raised error (a raised exception
aborts the Python loop).  Each iteration: compute `when`, call the AI,
write the activity file, commit and push with `when` as author and commit
date, sleep between iterations. -/
def op_gpt_push_loop (env : Env) (s : Settings) (backdate : Option Backdate)
    (base : WallClock) (count delay_sec : Int) :
    List Nat → OpState → List Event → OpState × List Event × Option String
  | [], st, evs => (st, evs, none)
  | i :: rest, st, evs =>
    let when := match backdate with
      | none => base
      | some sch => compute_backdated_when env.nowWall (some sch) i
    let text := generate_ai_commit_text (env.aiResponse i)
    let fsR := update_activity_file st.fs s.repo_path (env.calendarOf when) text
    let iso := env.isoOf when
    let msg := "Update activities for " ++ env.dateIso when
    let cp := commit_and_push st.git s s.branch msg
      (if s.secondary_remote_url.isSome then some s.secondary_remote_name else none)
      s.force_push_secondary (some iso) (some iso)
    let evs1 := evs ++ [Event.aiCall i, Event.fileWrite fsR.2] ++ cp.2.1
    match cp.2.2 with
    | some e => (⟨fsR.1, cp.1⟩, evs1, some e)
    | none =>
      let evs2 := evs1 ++
        (if (i : Int) < count - 1 ∧ delay_sec > 0 then [Event.sleepFor delay_sec] else [])
      op_gpt_push_loop env s backdate base count delay_sec rest ⟨fsR.1, cp.1⟩ evs2

/-- `op_gpt_push(settings, count, delay_sec, context, backdate)`.  The
`ensure_repo`/`sync_with_origin` calls are external clone/network effects:
they are recorded as events and `st0` is the state they leave behind.  The
`context` argument only extends the AI prompt, which the response oracle
already abstracts over, so it is carried but unused.  `base` is
`datetime.now(tz).replace(hour=12, minute=0, second=0, microsecond=0)`. -/
def op_gpt_push (env : Env) (s : Settings) (count delay_sec : Int)
    (context : Option String) (backdate : Option Backdate) (st0 : OpState) :
    OpState × List Event × Option String :=
  let base : WallClock := ⟨env.nowWall.days, 12, 0, 0, 0⟩
  op_gpt_push_loop env s backdate base count delay_sec
    (List.range count.toNat) st0 [Event.ensureRepo, Event.syncOrigin]

/-- Recognizer for AI-call events. -/
def isAiCall : Event → Bool
  | Event.aiCall _ => true
  | _ => false

/-- Recognizer for activity-file write events. -/
def isFileWrite : Event → Bool
  | Event.fileWrite _ => true
  | _ => false

/- ## Helper lemmas -/

theorem dropWhile_idem (p : Char → Bool) (l : List Char) :
    (l.dropWhile p).dropWhile p = l.dropWhile p := by
  induction l with
  | nil => rfl
  | cons c t ih =>
    by_cases h : p c <;> simp [List.dropWhile_cons, h, ih]

theorem rstrip_idem (l : List Char) : rstrip (rstrip l) = rstrip l := by
  simp [rstrip, dropWhile_idem]

theorem length_dropWhile_le (p : Char → Bool) (l : List Char) :
    (l.dropWhile p).length ≤ l.length := by
  induction l with
  | nil => exact Nat.le_refl 0
  | cons c t ih =>
    by_cases h : p c
    · simp only [List.dropWhile_cons, h, if_true, List.length_cons]
      omega
    · simp [List.dropWhile_cons, h]

theorem rstrip_length_le (l : List Char) : (rstrip l).length ≤ l.length := by
  simpa [rstrip] using length_dropWhile_le isSpaceChar l.reverse

theorem zero_days_foldl (l : List ContributionDay) (acc : List String) :
    l.foldl (fun acc day => if day.count = 0 then acc ++ [day.date] else acc) acc
      = acc ++ (l.filter (fun d => d.count == 0)).map (fun d => d.date) := by
  induction l generalizing acc with
  | nil => simp
  | cons d t ih =>
    by_cases h : d.count = 0 <;> simp [List.filter_cons, h, ih]

/- ## Claim C1 -/

/-- C1 (counterexample): contrary to the claim, the no-scheme path of
`compute_backdated_when` does NOT return the unmodified current time: at a
base time of 09:30 local it returns a noon-normalized value. -/
theorem compute_backdated_none_not_id :
    compute_backdated_when ⟨100, 9, 30, 0, 0⟩ none 0 ≠ ⟨100, 9, 30, 0, 0⟩ ∧
    (compute_backdated_when ⟨100, 9, 30, 0, 0⟩ none 0).hour = 12 := by
  decide

/-- C1 (amended): with no scheme the offset is zero — the calendar day is the
unmodified current day — but the result is still normalized to local noon,
exactly as under the hourly/daily/weekly schemes; the final
noon-normalization applies to every scheme choice. -/
theorem compute_backdated_none_noon (base : WallClock) (scheme : Option Backdate)
    (index : Nat) :
    compute_backdated_when base none index = ⟨base.days, 12, 0, 0, 0⟩ ∧
    (compute_backdated_when base scheme index).hour = 12 ∧
    (compute_backdated_when base scheme index).minute = 0 ∧
    (compute_backdated_when base scheme index).second = 0 ∧
    (compute_backdated_when base scheme index).micro = 0 := by
  rcases scheme with _ | b
  · exact ⟨rfl, rfl, rfl, rfl, rfl⟩
  · cases b <;> exact ⟨rfl, rfl, rfl, rfl, rfl⟩

/- ## Claim C5 -/

/-- C5: under the `daily` scheme consecutive indices give timestamps exactly
one calendar day apart, every computed timestamp has local clock time
12:00:00.000000, and index 0 under any scheme yields today at noon. -/
theorem compute_backdated_daily_spec (base : WallClock) (i : Nat)
    (scheme : Option Backdate) (h : base.hour < 24) :
    (compute_backdated_when base (some Backdate.daily) (i + 1)).days
        = (compute_backdated_when base (some Backdate.daily) i).days - 1 ∧
    (compute_backdated_when base (some Backdate.daily) i).hour = 12 ∧
    (compute_backdated_when base (some Backdate.daily) i).minute = 0 ∧
    (compute_backdated_when base (some Backdate.daily) i).second = 0 ∧
    (compute_backdated_when base (some Backdate.daily) i).micro = 0 ∧
    compute_backdated_when base scheme 0 = ⟨base.days, 12, 0, 0, 0⟩ := by
  refine ⟨?_, rfl, rfl, rfl, rfl, ?_⟩
  · simp only [compute_backdated_when, subDays]
    push_cast
    ring
  · rcases scheme with _ | b
    · rfl
    · cases b with
      | hourly =>
        have h0 : (0 : Int) ≤ (base.hour : Int) := Int.ofNat_nonneg base.hour
        have h24 : (base.hour : Int) < 24 := by exact_mod_cast h
        simp only [compute_backdated_when, subHours, Nat.cast_zero, sub_zero,
          WallClock.mk.injEq, and_true, true_and]
        omega
      | daily => simp [compute_backdated_when, subDays]
      | weekly => simp [compute_backdated_when, subDays]

/-- Witness for C5 at a concrete base time of 09:30 on day 0. -/
theorem compute_backdated_daily_spec_witness :
    (9 : Nat) < 24 ∧
    ((compute_backdated_when ⟨0, 9, 30, 0, 0⟩ (some Backdate.daily) 1).days
        = (compute_backdated_when ⟨0, 9, 30, 0, 0⟩ (some Backdate.daily) 0).days - 1 ∧
      (compute_backdated_when ⟨0, 9, 30, 0, 0⟩ (some Backdate.daily) 0).hour = 12 ∧
      (compute_backdated_when ⟨0, 9, 30, 0, 0⟩ (some Backdate.daily) 0).minute = 0 ∧
      (compute_backdated_when ⟨0, 9, 30, 0, 0⟩ (some Backdate.daily) 0).second = 0 ∧
      (compute_backdated_when ⟨0, 9, 30, 0, 0⟩ (some Backdate.daily) 0).micro = 0 ∧
      compute_backdated_when ⟨0, 9, 30, 0, 0⟩ (some Backdate.hourly) 0 = ⟨0, 12, 0, 0, 0⟩) :=
  ⟨by decide, compute_backdated_daily_spec ⟨0, 9, 30, 0, 0⟩ 0 (some Backdate.hourly) (by decide)⟩

/- ## Claim C6 -/

/-- C6: whatever text the chat-completion endpoint returns, the processed
commit message is at most 220 characters long and carries no trailing
whitespace (it is its own `rstrip`). -/
theorem generate_ai_commit_text_bounded (content : List Char) :
    (generate_ai_commit_text content).length ≤ 220 ∧
    rstrip (generate_ai_commit_text content) = generate_ai_commit_text content := by
  constructor
  · calc (generate_ai_commit_text content).length
        ≤ ((strip content).take 220).length := rstrip_length_le _
      _ ≤ 220 := by simp
  · simp [generate_ai_commit_text, rstrip_idem]

/- ## Claim C8 -/

/-- C8: the zero-day collection loop of `get_gata.py` gathers exactly the
dates of the entries whose contribution count is 0, in input order — the
list that the script then prints to standard output. -/
theorem zero_days_spec (l : List ContributionDay) :
    zero_days l = (l.filter (fun d => d.count == 0)).map (fun d => d.date) := by
  simp [zero_days, zero_days_foldl]

/- ## Claim C9 -/

theorem splitComma_ne_nil (l : List Char) : splitComma l ≠ [] := by
  cases l with
  | nil => simp [splitComma]
  | cons c rest =>
    by_cases h : c = ','
    · simp [splitComma, h]
    · rcases hs : splitComma rest with _ | ⟨s, ss⟩ <;> simp [splitComma, h, hs]

theorem splitComma_append_comma (a b : List Char) :
    splitComma (a ++ ',' :: b) = splitComma a ++ splitComma b := by
  induction a with
  | nil => simp [splitComma]
  | cons c t ih =>
    by_cases h : c = ','
    · subst h
      simp [splitComma, ih]
    · rcases hsc : splitComma t with _ | ⟨s, ss⟩
      · exact absurd hsc (splitComma_ne_nil t)
      · simp only [List.cons_append, splitComma, h, if_neg, ih, hsc, if_false,
          List.append_eq]

theorem filterMap_strip_eq (l : List (List Char)) :
    (l.filterMap fun d =>
        let t := strip d
        if t = [] then none else some t)
      = (l.map strip).filter (fun t => !t.isEmpty) := by
  induction l with
  | nil => rfl
  | cons d t ih =>
    by_cases h : strip d = [] <;>
      simp [List.filterMap_cons, List.filter_cons, List.isEmpty_iff, h, ih]

/-- C9: the fill-missing dates argument is split on commas, each segment is
stripped of surrounding whitespace, and empty segments are discarded; splitting
distributes over a comma, so trailing commas, doubled commas, and
whitespace-only segments leave exactly the non-empty dates in input order. -/
theorem parse_dates_spec (s a b : List Char) :
    parse_dates s = ((splitComma s).map strip).filter (fun t => !t.isEmpty) ∧
    parse_dates (a ++ ',' :: b) = parse_dates a ++ parse_dates b ∧
    parse_dates ([] : List Char) = [] := by
  refine ⟨filterMap_strip_eq _, ?_, rfl⟩
  simp [parse_dates, splitComma_append_comma, List.filterMap_append]

/- ## Claim C3 -/

theorem digitChar_ne_newline : ∀ r : Nat, r < 10 → digitChar r ≠ '\n' := by
  decide

theorem natToStringGo_digits (fuel : Nat) :
    ∀ (n : Nat) (acc : List Char), (∀ c ∈ acc, ∃ r, r < 10 ∧ c = digitChar r) →
      ∀ c ∈ natToStringGo fuel n acc, ∃ r, r < 10 ∧ c = digitChar r := by
  induction fuel with
  | zero => intro n acc hacc c hc; exact hacc c hc
  | succ fuel ih =>
    intro n acc hacc c hc
    by_cases hn : n = 0
    · simp only [natToStringGo, hn, if_true] at hc
      exact hacc c hc
    · simp only [natToStringGo, hn, if_false] at hc
      refine ih (n / 10) (digitChar (n % 10) :: acc) ?_ c hc
      intro x hx
      rcases List.mem_cons.mp hx with hx1 | hx1
      · exact ⟨n % 10, Nat.mod_lt n (by decide), hx1⟩
      · exact hacc x hx1

theorem natToString_ne_newline (n : Nat) : ∀ c ∈ natToString n, c ≠ '\n' := by
  intro c hc
  by_cases hn : n = 0
  · simp only [natToString, hn, if_true] at hc
    simp only [List.mem_singleton] at hc
    subst hc; decide
  · simp only [natToString, hn, if_false] at hc
    obtain ⟨r, hr, hceq⟩ := natToStringGo_digits (n + 1) n []
      (by intro c hc; cases hc) c hc
    subst hceq
    exact digitChar_ne_newline r hr

theorem padNat_ne_newline (w n : Nat) : ∀ c ∈ padNat w n, c ≠ '\n' := by
  intro c hc
  simp only [padNat, List.mem_append] at hc
  rcases hc with hc | hc
  · have := List.eq_of_mem_replicate hc
    subst this; decide
  · exact natToString_ne_newline n c hc

theorem fmtDMY_ne_newline (t : LocalTime) : ∀ c ∈ fmtDMY t, c ≠ '\n' := by
  intro c hc
  simp only [fmtDMY, List.mem_append, List.mem_cons] at hc
  rcases hc with hc | hc | hc | hc | hc
  · exact padNat_ne_newline 2 t.day c hc
  · subst hc; decide
  · exact padNat_ne_newline 2 t.month c hc
  · subst hc; decide
  · exact padNat_ne_newline 2 (t.year % 100) c hc

theorem takeWhile_append_newline (xs ys : List Char) (h : ∀ c ∈ xs, c ≠ '\n') :
    (xs ++ '\n' :: ys).takeWhile (fun c => c != '\n') = xs := by
  induction xs with
  | nil => simp [List.takeWhile_cons]
  | cons c t ih =>
    have hc : c ≠ '\n' := h c (List.mem_cons_self c t)
    have ht : ∀ x ∈ t, x ≠ '\n' := fun x hx => h x (List.mem_cons_of_mem c hx)
    simp [List.takeWhile_cons, hc, ih ht]

theorem firstLine_headerText (t : LocalTime) (activity : List Char) :
    firstLine (headerText t activity) = '#' :: ' ' :: fmtDMY t := by
  have h1 : ('#' :: ' ' :: fmtDMY t ++ '\n' :: ('\n' :: (activity ++ ['\n']))).takeWhile
      (fun c => c != '\n') = '#' :: ' ' :: fmtDMY t := by
    refine takeWhile_append_newline _ _ ?_
    intro c hc
    simp only [List.mem_cons, List.mem_append] at hc
    rcases hc with hc | hc | hc
    · subst hc; decide
    · subst hc; decide
    · exact fmtDMY_ne_newline t c hc
  simpa [firstLine, headerText] using h1

theorem updText_length_pos (t : LocalTime) (activity : List Char) :
    0 < (updText t activity).length := by
  simp [updText]

/-- C3: writing an activity record to an absent or empty file produces the
header text, whose first line is the level-1 heading `# DD.MM.YY` and which
contains the content; writing to a non-empty file appends the
`<hr>`/`_UPD (HH:MM):_` block with the content, so the old content is kept as
a prefix and the file size strictly increases. -/
theorem update_activity_file_spec (fs : List Char → Option (List Char))
    (repo_path : List Char) (t : LocalTime) (activity : List Char) :
    (update_activity_file fs repo_path t activity).2 = activity_path repo_path t ∧
    (fs (activity_path repo_path t) = none ∨ fs (activity_path repo_path t) = some [] →
      (update_activity_file fs repo_path t activity).1 (activity_path repo_path t)
          = some (headerText t activity) ∧
      firstLine (headerText t activity) = '#' :: ' ' :: fmtDMY t ∧
      ∃ u v, headerText t activity = u ++ activity ++ v) ∧
    (∀ c, fs (activity_path repo_path t) = some c → c ≠ [] →
      (update_activity_file fs repo_path t activity).1 (activity_path repo_path t)
          = some (c ++ updText t activity) ∧
      c.length < (c ++ updText t activity).length ∧
      ∃ u v, c ++ updText t activity = u ++ activity ++ v) := by
  refine ⟨?_, ?_, ?_⟩
  · rcases hfs : fs (activity_path repo_path t) with _ | c
    · simp [update_activity_file, hfs]
    · by_cases hc : c = [] <;> simp [update_activity_file, hfs, hc]
  · intro h
    refine ⟨?_, firstLine_headerText t activity, ?_⟩
    · rcases h with h | h <;> simp [update_activity_file, h]
    · refine ⟨'#' :: ' ' :: (fmtDMY t ++ ['\n', '\n']), ['\n'], ?_⟩
      simp [headerText]
  · intro c hfs hc
    refine ⟨?_, ?_, ?_⟩
    · simp [update_activity_file, hfs, hc]
    · have := updText_length_pos t activity
      simp only [List.length_append]
      omega
    · refine ⟨c ++ ("\n<hr>\n\n_UPD (".toList ++ fmtHM t ++ "):_\n\n".toList), ['\n'], ?_⟩
      simp [updText]

/-- Witness for C3: a fresh file under an empty filesystem gets the header
with the heading first line, and appending to a one-character file strictly
grows it while keeping the old content as a prefix. -/
theorem update_activity_file_spec_witness :
    ((update_activity_file (fun _ => none) "r".toList ⟨2025, 10, 7, 9, 30⟩ "hi".toList).1
        (activity_path "r".toList ⟨2025, 10, 7, 9, 30⟩)
      = some (headerText ⟨2025, 10, 7, 9, 30⟩ "hi".toList) ∧
     firstLine (headerText ⟨2025, 10, 7, 9, 30⟩ "hi".toList)
      = '#' :: ' ' :: fmtDMY ⟨2025, 10, 7, 9, 30⟩) ∧
    ((update_activity_file
        (fun p => if p = activity_path "r".toList ⟨2025, 10, 7, 9, 30⟩ then some ['x'] else none)
        "r".toList ⟨2025, 10, 7, 9, 30⟩ "hi".toList).1
        (activity_path "r".toList ⟨2025, 10, 7, 9, 30⟩)
      = some ('x' :: updText ⟨2025, 10, 7, 9, 30⟩ "hi".toList) ∧
     (['x'] : List Char).length
      < (['x'] ++ updText ⟨2025, 10, 7, 9, 30⟩ "hi".toList).length) := by
  constructor
  · have h := update_activity_file_spec (fun _ => none) "r".toList ⟨2025, 10, 7, 9, 30⟩
      "hi".toList
    have h2 := h.2.1 (Or.inl rfl)
    exact ⟨h2.1, h2.2.1⟩
  · have h := update_activity_file_spec
      (fun p => if p = activity_path "r".toList ⟨2025, 10, 7, 9, 30⟩ then some ['x'] else none)
      "r".toList ⟨2025, 10, 7, 9, 30⟩ "hi".toList
    have h2 := h.2.2 ['x'] (by simp) (by simp)
    exact ⟨h2.1, h2.2.1⟩

/- ## Phase lemmas for `commit_and_push` -/

theorem stage_phase_commits (st : GitState) (msg : String) (a : Actor)
    (ad cd : Option String) :
    (stage_phase st msg a ad cd).1.commits
      = if st.dirty then st.commits ++ [⟨msg, a, a, ad, cd⟩] else st.commits := by
  by_cases h : st.dirty <;> simp [stage_phase, h]

theorem stage_phase_config (st : GitState) (msg : String) (a : Actor)
    (ad cd : Option String) : (stage_phase st msg a ad cd).1.config = st.config := by
  by_cases h : st.dirty <;> simp [stage_phase, h]

theorem stage_phase_originPushOk (st : GitState) (msg : String) (a : Actor)
    (ad cd : Option String) :
    (stage_phase st msg a ad cd).1.originPushOk = st.originPushOk := by
  by_cases h : st.dirty <;> simp [stage_phase, h]

theorem stage_phase_secondaryPushOk (st : GitState) (msg : String) (a : Actor)
    (ad cd : Option String) :
    (stage_phase st msg a ad cd).1.secondaryPushOk = st.secondaryPushOk := by
  by_cases h : st.dirty <;> simp [stage_phase, h]

theorem stage_phase_remotes (st : GitState) (msg : String) (a : Actor)
    (ad cd : Option String) :
    (stage_phase st msg a ad cd).1.remotes = st.remotes := by
  by_cases h : st.dirty <;> simp [stage_phase, h]

theorem stage_phase_hasUpstream (st : GitState) (msg : String) (a : Actor)
    (ad cd : Option String) :
    (stage_phase st msg a ad cd).1.hasUpstream = st.hasUpstream := by
  by_cases h : st.dirty <;> simp [stage_phase, h]

theorem stage_phase_countP_commit (st : GitState) (msg : String) (a : Actor)
    (ad cd : Option String) :
    (stage_phase st msg a ad cd).2.countP isCommitEvent = if st.dirty then 1 else 0 := by
  by_cases h : st.dirty <;> simp [stage_phase, h, isCommitEvent]

theorem stage_phase_countP_origin (st : GitState) (msg : String) (a : Actor)
    (ad cd : Option String) :
    (stage_phase st msg a ad cd).2.countP isOriginPush = 0 := by
  by_cases h : st.dirty <;> simp [stage_phase, h, isOriginPush]

theorem stage_phase_countP_secondary (st : GitState) (msg : String) (a : Actor)
    (ad cd : Option String) :
    (stage_phase st msg a ad cd).2.countP isSecondaryPush = 0 := by
  by_cases h : st.dirty <;> simp [stage_phase, h, isSecondaryPush]

theorem push_phase_commits (st : GitState) (sec : Option String) (force : Bool) :
    (push_phase st sec force).1.commits = st.commits := by
  by_cases h : st.originPushOk <;> simp [push_phase, h]

theorem push_phase_config (st : GitState) (sec : Option String) (force : Bool) :
    (push_phase st sec force).1.config = st.config := by
  by_cases h : st.originPushOk <;> simp [push_phase, h]

theorem push_phase_err (st : GitState) (sec : Option String) (force : Bool) :
    (push_phase st sec force).2.2
      = if st.originPushOk then none else some "origin push failed" := by
  by_cases h : st.originPushOk <;> simp [push_phase, h]

theorem push_phase_countP_commit (st : GitState) (sec : Option String) (force : Bool) :
    (push_phase st sec force).2.1.countP isCommitEvent = 0 := by
  by_cases h : st.originPushOk <;> rcases sec with _ | n <;>
    simp [push_phase, h, isCommitEvent] <;>
    by_cases hm : n ∈ st.remotes <;> by_cases hsp : st.secondaryPushOk <;>
    simp [hm, hsp, isCommitEvent]

theorem push_phase_countP_origin (st : GitState) (sec : Option String) (force : Bool) :
    (push_phase st sec force).2.1.countP isOriginPush = 1 := by
  by_cases h : st.originPushOk <;> rcases sec with _ | n <;>
    simp [push_phase, h, isOriginPush] <;>
    by_cases hm : n ∈ st.remotes <;> by_cases hsp : st.secondaryPushOk <;>
    simp [hm, hsp, isOriginPush]

theorem push_phase_countP_stage (st : GitState) (sec : Option String) (force : Bool) :
    (push_phase st sec force).2.1.countP isStage = 0 := by
  by_cases h : st.originPushOk <;> rcases sec with _ | n <;>
    simp [push_phase, h, isStage] <;>
    by_cases hm : n ∈ st.remotes <;> by_cases hsp : st.secondaryPushOk <;>
    simp [hm, hsp, isStage]

theorem push_phase_fail_no_secondary (st : GitState) (sec : Option String) (force : Bool)
    (h : st.originPushOk = false) :
    (push_phase st sec force).2.1.countP isSecondaryPush = 0 := by
  simp [push_phase, h, isSecondaryPush]

theorem push_phase_secondary_logged (st : GitState) (n : String) (force : Bool)
    (h : st.originPushOk = true) (hm : n ∈ st.remotes) (hsp : st.secondaryPushOk = false) :
    Event.logError "secondary push failed" ∈ (push_phase st (some n) force).2.1 := by
  simp [push_phase, h, hm, hsp]

theorem push_phase_remotes (st : GitState) (sec : Option String) (force : Bool) :
    (push_phase st sec force).1.remotes = st.remotes := by
  by_cases h : st.originPushOk <;> simp [push_phase, h]

/-- Structural decomposition of `commit_and_push` when the identity resolves:
the result is the push phase after the stage phase over the state whose
remotes were adjusted and whose config received the identity write-back, and
the leading events contain no stage/commit/push/log-error events. -/
theorem cpush_decomp (st : GitState) (s : Settings) (branch msg : String)
    (sec : Option String) (force : Bool) (ad cd : Option String) (a : Actor)
    (h : _ensure_repo_identity st.config s = some a) :
    ∃ (ev0 : List Event) (R : List String),
      commit_and_push st s branch msg sec force ad cd =
        ((push_phase (stage_phase
            { st with
              remotes := R
              config := if st.configWriteOk then ⟨some a.name, some a.email⟩
                        else st.config } msg a ad cd).1 sec force).1,
         ev0 ++ (stage_phase
            { st with
              remotes := R
              config := if st.configWriteOk then ⟨some a.name, some a.email⟩
                        else st.config } msg a ad cd).2
             ++ (push_phase (stage_phase
            { st with
              remotes := R
              config := if st.configWriteOk then ⟨some a.name, some a.email⟩
                        else st.config } msg a ad cd).1 sec force).2.1,
         (push_phase (stage_phase
            { st with
              remotes := R
              config := if st.configWriteOk then ⟨some a.name, some a.email⟩
                        else st.config } msg a ad cd).1 sec force).2.2) ∧
      ev0.countP isCommitEvent = 0 ∧ ev0.countP isOriginPush = 0 ∧
      ev0.countP isSecondaryPush = 0 ∧ ev0.countP isStage = 0 ∧
      ∀ m, Event.logError m ∉ ev0 := by
  rcases hsec : s.secondary_remote_url with _ | u
  · refine ⟨[Event.ensureRemote "origin" s.repo_url, Event.checkout branch],
      if "origin" ∈ st.remotes then st.remotes else st.remotes ++ ["origin"],
      ?_, by simp [isCommitEvent], by simp [isOriginPush], by simp [isSecondaryPush],
      by simp [isStage], by simp⟩
    simp [commit_and_push, ensure_remote_url, hsec, h]
  · refine ⟨[Event.ensureRemote "origin" s.repo_url,
      Event.ensureRemote s.secondary_remote_name u, Event.checkout branch],
      (if s.secondary_remote_name ∈
          (if "origin" ∈ st.remotes then st.remotes else st.remotes ++ ["origin"])
       then (if "origin" ∈ st.remotes then st.remotes else st.remotes ++ ["origin"])
       else (if "origin" ∈ st.remotes then st.remotes
             else st.remotes ++ ["origin"]) ++ [s.secondary_remote_name]),
      ?_, by simp [isCommitEvent], by simp [isOriginPush], by simp [isSecondaryPush],
      by simp [isStage], by simp⟩
    simp [commit_and_push, ensure_remote_url, hsec, h]

/- ## Claim C2 -/

/-- C2: once the identity resolves, `commit_and_push` creates exactly one new
commit — appended to the history, with author and committer both the resolved
identity and the supplied dates — iff the working tree differs from HEAD
after staging; on a clean tree no commit is created and the step still
proceeds to the origin push. -/
theorem commit_and_push_commit_spec (st : GitState) (s : Settings)
    (branch msg : String) (sec : Option String) (force : Bool)
    (ad cd : Option String) (a : Actor)
    (h : _ensure_repo_identity st.config s = some a) :
    (st.dirty = true →
      (commit_and_push st s branch msg sec force ad cd).1.commits
          = st.commits ++ [⟨msg, a, a, ad, cd⟩] ∧
      (commit_and_push st s branch msg sec force ad cd).2.1.countP isCommitEvent = 1) ∧
    (st.dirty = false →
      (commit_and_push st s branch msg sec force ad cd).1.commits = st.commits ∧
      (commit_and_push st s branch msg sec force ad cd).2.1.countP isCommitEvent = 0 ∧
      (commit_and_push st s branch msg sec force ad cd).2.1.countP isOriginPush = 1) := by
  rcases hsec : s.secondary_remote_url with _ | u <;>
    constructor <;> intro hd <;>
    simp [commit_and_push, ensure_remote_url, hsec, h, push_phase_commits,
      stage_phase_commits, push_phase_countP_commit, stage_phase_countP_commit,
      push_phase_countP_origin, stage_phase_countP_origin, hd, isCommitEvent,
      isOriginPush]

/- ## Claim C4 -/

/-- C4: a failed push to origin is re-raised (the returned error is set) and
no secondary push is attempted; when the origin push succeeds no exception
propagates regardless of the secondary outcome, and a failing secondary push
is logged while the operation still completes without error. -/
theorem commit_and_push_push_spec (st : GitState) (s : Settings)
    (branch msg : String) (sec : Option String) (force : Bool)
    (ad cd : Option String) (a : Actor)
    (h : _ensure_repo_identity st.config s = some a) :
    (st.originPushOk = false →
      (commit_and_push st s branch msg sec force ad cd).2.2 = some "origin push failed" ∧
      (commit_and_push st s branch msg sec force ad cd).2.1.countP isSecondaryPush = 0) ∧
    (st.originPushOk = true →
      (commit_and_push st s branch msg sec force ad cd).2.2 = none) ∧
    (∀ n, sec = some n → st.originPushOk = true → st.secondaryPushOk = false →
      n ∈ (commit_and_push st s branch msg sec force ad cd).1.remotes →
      Event.logError "secondary push failed"
          ∈ (commit_and_push st s branch msg sec force ad cd).2.1 ∧
      (commit_and_push st s branch msg sec force ad cd).2.2 = none) := by
  obtain ⟨ev0, R, heq, hc1, hc2, hc3, hc4, hc5⟩ :=
    cpush_decomp st s branch msg sec force ad cd a h
  refine ⟨?_, ?_, ?_⟩
  · intro ho
    constructor
    · rw [heq]
      simp [push_phase_err, stage_phase_originPushOk, ho]
    · rw [heq]
      simp only [List.countP_append, hc3, stage_phase_countP_secondary]
      rw [push_phase_fail_no_secondary _ sec force
        (by simp [stage_phase_originPushOk, ho])]
  · intro ho
    rw [heq]
    simp [push_phase_err, stage_phase_originPushOk, ho]
  · intro n hn ho hsp hm
    subst hn
    rw [heq] at hm
    have hS1 : ((stage_phase
        { st with
          remotes := R
          config := if st.configWriteOk then ⟨some a.name, some a.email⟩
                    else st.config } msg a ad cd).1).originPushOk = true := by
      simp [stage_phase_originPushOk, ho]
    have hS3 : ((stage_phase
        { st with
          remotes := R
          config := if st.configWriteOk then ⟨some a.name, some a.email⟩
                    else st.config } msg a ad cd).1).secondaryPushOk = false := by
      simp [stage_phase_secondaryPushOk, hsp]
    have hS2 : n ∈ ((stage_phase
        { st with
          remotes := R
          config := if st.configWriteOk then ⟨some a.name, some a.email⟩
                    else st.config } msg a ad cd).1).remotes := by
      simpa [push_phase_remotes, stage_phase_remotes] using hm
    have hlog := push_phase_secondary_logged _ n force hS1 hS2 hS3
    constructor
    · rw [heq]
      simp only [List.mem_append]
      exact Or.inr hlog
    · rw [heq]
      simp [push_phase_err, stage_phase_originPushOk, ho]

/- ## Claim C7 -/

theorem identity_eq_spec (cfg : RepoConfig) (s : Settings) :
    _ensure_repo_identity cfg s = identity_spec cfg s := by
  by_cases hn : s.author_name = ""
  · by_cases he : s.author_email = ""
    · rcases hcn : cfg.user_name with _ | un
      · simp [_ensure_repo_identity, identity_spec, hn, he, hcn]
      · rcases hce : cfg.user_email with _ | ue
        · simp [_ensure_repo_identity, identity_spec, hn, he, hcn, hce]
        · by_cases h1 : un = "" <;> by_cases h2 : ue = "" <;>
            simp [_ensure_repo_identity, identity_spec, hn, he, hcn, hce, h1, h2]
    · rcases hcn : cfg.user_name with _ | un
      · simp [_ensure_repo_identity, identity_spec, hn, he, hcn]
      · by_cases h1 : un = "" <;>
          simp [_ensure_repo_identity, identity_spec, hn, he, hcn, h1]
  · by_cases he : s.author_email = ""
    · rcases hce : cfg.user_email with _ | ue
      · simp [_ensure_repo_identity, identity_spec, hn, he, hce]
      · by_cases h2 : ue = "" <;>
          simp [_ensure_repo_identity, identity_spec, hn, he, hce, h2]
    · simp [_ensure_repo_identity, identity_spec, hn, he]

/-- C7: the identity resolver agrees with the spec's preference order
(settings fields first, repository config for any field left empty, abort when
either is still missing); when it aborts, `commit_and_push` raises before any
staging or commit; on success the resolved identity is written back into the
repository config, and a failing write-back changes neither the error outcome
nor the committed history. -/
theorem identity_resolution_spec (cfg : RepoConfig) (s : Settings) (st : GitState)
    (branch msg : String) (sec : Option String) (force : Bool)
    (ad cd : Option String) :
    _ensure_repo_identity cfg s = identity_spec cfg s ∧
    (_ensure_repo_identity st.config s = none →
      (commit_and_push st s branch msg sec force ad cd).2.2.isSome = true ∧
      (commit_and_push st s branch msg sec force ad cd).2.1.countP isStage = 0 ∧
      (commit_and_push st s branch msg sec force ad cd).2.1.countP isCommitEvent = 0) ∧
    (∀ a, _ensure_repo_identity st.config s = some a →
      (commit_and_push { st with configWriteOk := true } s branch msg
          sec force ad cd).1.config = ⟨some a.name, some a.email⟩ ∧
      (commit_and_push { st with configWriteOk := false } s branch msg
          sec force ad cd).1.config = st.config ∧
      (commit_and_push { st with configWriteOk := false } s branch msg
          sec force ad cd).2.2
        = (commit_and_push { st with configWriteOk := true } s branch msg
          sec force ad cd).2.2 ∧
      (commit_and_push { st with configWriteOk := false } s branch msg
          sec force ad cd).1.commits
        = (commit_and_push { st with configWriteOk := true } s branch msg
          sec force ad cd).1.commits) := by
  refine ⟨identity_eq_spec cfg s, ?_, ?_⟩
  · intro h
    rcases hsec : s.secondary_remote_url with _ | u <;>
      simp [commit_and_push, ensure_remote_url, hsec, h, isStage, isCommitEvent]
  · intro a ha
    obtain ⟨ev1, R1, heq1, _, _, _, _, _⟩ :=
      cpush_decomp { st with configWriteOk := true } s branch msg sec force ad cd a ha
    obtain ⟨ev0, R0, heq0, _, _, _, _, _⟩ :=
      cpush_decomp { st with configWriteOk := false } s branch msg sec force ad cd a ha
    refine ⟨?_, ?_, ?_, ?_⟩
    · rw [heq1]
      simp [push_phase_config, stage_phase_config]
    · rw [heq0]
      simp [push_phase_config, stage_phase_config]
    · rw [heq0, heq1]
      simp [push_phase_err, stage_phase_originPushOk]
    · rw [heq0, heq1]
      simp [push_phase_commits, stage_phase_commits]

/-- Witness for C2: with a resolvable identity and a dirty tree the commit is
appended with the resolved author/committer; a concrete run shows it. -/
theorem commit_and_push_commit_spec_witness :
    _ensure_repo_identity
        (GitState.mk [] true ⟨none, none⟩ [] false true true true).config
        ⟨"u", [], "main", "gitlab", none, true, "Alice", "a@x"⟩
      = some ⟨"Alice", "a@x"⟩ ∧
    (commit_and_push ⟨[], true, ⟨none, none⟩, [], false, true, true, true⟩
        ⟨"u", [], "main", "gitlab", none, true, "Alice", "a@x"⟩ "main" "m" none false
        none none).1.commits
      = [] ++ [⟨"m", ⟨"Alice", "a@x"⟩, ⟨"Alice", "a@x"⟩, none, none⟩] ∧
    (commit_and_push ⟨[], true, ⟨none, none⟩, [], false, true, true, true⟩
        ⟨"u", [], "main", "gitlab", none, true, "Alice", "a@x"⟩ "main" "m" none false
        none none).2.1.countP isCommitEvent = 1 := by
  have T := commit_and_push_commit_spec
    ⟨[], true, ⟨none, none⟩, [], false, true, true, true⟩
    ⟨"u", [], "main", "gitlab", none, true, "Alice", "a@x"⟩ "main" "m" none false
    none none ⟨"Alice", "a@x"⟩ rfl
  exact ⟨rfl, (T.1 rfl).1, (T.1 rfl).2⟩

/-- Witness for C4: a concrete failing origin push raises and skips the
secondary push, and a concrete failing secondary push is logged while the
operation still returns without error. -/
theorem commit_and_push_push_spec_witness :
    ((commit_and_push ⟨[], false, ⟨none, none⟩, [], false, false, true, true⟩
        ⟨"u", [], "main", "gitlab", none, true, "Alice", "a@x"⟩ "main" "m" none false
        none none).2.2 = some "origin push failed" ∧
     (commit_and_push ⟨[], false, ⟨none, none⟩, [], false, false, true, true⟩
        ⟨"u", [], "main", "gitlab", none, true, "Alice", "a@x"⟩ "main" "m" none false
        none none).2.1.countP isSecondaryPush = 0) ∧
    (Event.logError "secondary push failed"
        ∈ (commit_and_push ⟨[], false, ⟨none, none⟩, ["gitlab"], false, true, false, true⟩
        ⟨"u", [], "main", "gitlab", some "gu", true, "Alice", "a@x"⟩ "main" "m"
        (some "gitlab") true none none).2.1 ∧
     (commit_and_push ⟨[], false, ⟨none, none⟩, ["gitlab"], false, true, false, true⟩
        ⟨"u", [], "main", "gitlab", some "gu", true, "Alice", "a@x"⟩ "main" "m"
        (some "gitlab") true none none).2.2 = none) := by
  have TA := commit_and_push_push_spec
    ⟨[], false, ⟨none, none⟩, [], false, false, true, true⟩
    ⟨"u", [], "main", "gitlab", none, true, "Alice", "a@x"⟩ "main" "m" none false
    none none ⟨"Alice", "a@x"⟩ rfl
  have TB := commit_and_push_push_spec
    ⟨[], false, ⟨none, none⟩, ["gitlab"], false, true, false, true⟩
    ⟨"u", [], "main", "gitlab", some "gu", true, "Alice", "a@x"⟩ "main" "m"
    (some "gitlab") true none none ⟨"Alice", "a@x"⟩ rfl
  exact ⟨TA.1 rfl, TB.2.2 "gitlab" rfl rfl rfl (by decide)⟩

/-- Witness for C7: the resolver matches the spec order on a concrete config;
with no identity available the operation aborts before staging; with a
resolvable identity and a working write the identity lands in the config. -/
theorem identity_resolution_spec_witness :
    _ensure_repo_identity ⟨some "N", some "E"⟩
        ⟨"u", [], "main", "gitlab", none, true, "", ""⟩
      = identity_spec ⟨some "N", some "E"⟩ ⟨"u", [], "main", "gitlab", none, true, "", ""⟩ ∧
    (commit_and_push ⟨[], false, ⟨none, none⟩, [], false, true, true, true⟩
        ⟨"u", [], "main", "gitlab", none, true, "", ""⟩ "b" "m" none false
        none none).2.2.isSome = true ∧
    (commit_and_push
        { (⟨[], true, ⟨none, none⟩, [], false, true, true, true⟩ : GitState) with
          configWriteOk := true }
        ⟨"u", [], "main", "gitlab", none, true, "Alice", "a@x"⟩ "b" "m" none false
        none none).1.config = ⟨some "Alice", some "a@x"⟩ := by
  have T1 := identity_resolution_spec ⟨some "N", some "E"⟩
    ⟨"u", [], "main", "gitlab", none, true, "", ""⟩
    ⟨[], false, ⟨none, none⟩, [], false, true, true, true⟩ "b" "m" none false none none
  have T2 := identity_resolution_spec ⟨none, none⟩
    ⟨"u", [], "main", "gitlab", none, true, "Alice", "a@x"⟩
    ⟨[], true, ⟨none, none⟩, [], false, true, true, true⟩ "b" "m" none false none none
  exact ⟨T1.1, (T1.2.1 rfl).1, (T2.2.2 ⟨"Alice", "a@x"⟩ rfl).1⟩

/- ## Claim C10 -/

/-- C10: for any count less than or equal to 0 the `gpt-push` loop body never
runs: after the ensure-clone and sync steps the state is unchanged, no error
is raised, and no AI call, file write, commit, or push happens. -/
theorem op_gpt_push_nonpositive (env : Env) (s : Settings) (count delay_sec : Int)
    (context : Option String) (backdate : Option Backdate) (st0 : OpState)
    (h : count ≤ 0) :
    op_gpt_push env s count delay_sec context backdate st0
      = (st0, [Event.ensureRepo, Event.syncOrigin], none) ∧
    (op_gpt_push env s count delay_sec context backdate st0).2.1.countP isAiCall = 0 ∧
    (op_gpt_push env s count delay_sec context backdate st0).2.1.countP isFileWrite = 0 ∧
    (op_gpt_push env s count delay_sec context backdate st0).2.1.countP isCommitEvent = 0 ∧
    (op_gpt_push env s count delay_sec context backdate st0).2.1.countP isOriginPush = 0 ∧
    (op_gpt_push env s count delay_sec context backdate st0).2.1.countP isSecondaryPush = 0 := by
  have h0 : count.toNat = 0 := Int.toNat_of_nonpos h
  have heq : op_gpt_push env s count delay_sec context backdate st0
      = (st0, [Event.ensureRepo, Event.syncOrigin], none) := by
    simp [op_gpt_push, h0, List.range_zero, op_gpt_push_loop]
  refine ⟨heq, ?_, ?_, ?_, ?_, ?_⟩ <;>
    rw [heq] <;>
    simp [isAiCall, isFileWrite, isCommitEvent, isOriginPush, isSecondaryPush]

/-- Witness for C10 at `count = -2`. -/
theorem op_gpt_push_nonpositive_witness :
    (-2 : Int) ≤ 0 ∧
    op_gpt_push
        ⟨⟨0, 12, 0, 0, 0⟩, fun _ => ⟨2025, 1, 1, 12, 0⟩, fun _ => [], fun _ => "",
          fun _ => ""⟩
        ⟨"u", [], "main", "gitlab", none, true, "A", "e"⟩ (-2) 0 none none
        ⟨fun _ => none, ⟨[], false, ⟨none, none⟩, [], false, true, true, true⟩⟩
      = (⟨fun _ => none, ⟨[], false, ⟨none, none⟩, [], false, true, true, true⟩⟩,
         [Event.ensureRepo, Event.syncOrigin], none) :=
  ⟨by decide,
   (op_gpt_push_nonpositive
      ⟨⟨0, 12, 0, 0, 0⟩, fun _ => ⟨2025, 1, 1, 12, 0⟩, fun _ => [], fun _ => "",
        fun _ => ""⟩
      ⟨"u", [], "main", "gitlab", none, true, "A", "e"⟩ (-2) 0 none none
      ⟨fun _ => none, ⟨[], false, ⟨none, none⟩, [], false, true, true, true⟩⟩
      (by decide)).1⟩
